import Mathlib

/-!
Verification of the sweep python client library (`sweep-py/sweep/sweep.py`)
against its natural-language specification.

The development shallowly embeds the data model and the operations of the
library: pure python functions become Lean functions, stateful methods become
explicit state-passing functions, and `json`-shaped python values become an
inductive `JSON` type.  Python dictionaries are modelled as association lists
with unique keys (python dicts preserve insertion order; `dset` replaces in
place, `dpop` removes the binding).  Numeric JSON values are modelled as
integers: no verified claim depends on non-integral numerics, and python's
floats only appear in fields (`preview_flex`, view geometry) whose values are
carried around opaquely by the functions under study.  The newline-framing
layer (`json.dumps`/`json.loads`) is the identity on JSON values and is
modelled as such.
-/

namespace SweepSpec

/-- JSON values.  `obj` is an association list standing for a python dict. -/
inductive JSON where
  | null
  | bool (b : Bool)
  | num (n : Int)
  | str (s : String)
  | arr (xs : List JSON)
  | obj (kvs : List (String × JSON))

/-- `d.get(k)` on a python dict: the value bound to `k`, if any. -/
def dget (kvs : List (String × JSON)) (k : String) : Option JSON :=
  match kvs with
  | [] => none
  | (k', v) :: rest => if k' = k then some v else dget rest k

/-- `d[k] = v` on a python dict: replace in place if the key is present,
append otherwise (python dicts keep the original key position). -/
def dset (kvs : List (String × JSON)) (k : String) (v : JSON) :
    List (String × JSON) :=
  match kvs with
  | [] => [(k, v)]
  | (k', v') :: rest =>
    if k' = k then (k', v) :: rest else (k', v') :: dset rest k v

/-- `d.pop(k, None)` on a python dict: the dict with the binding for `k`
removed (keys are unique, so removing the first occurrence suffices). -/
def dpop (kvs : List (String × JSON)) (k : String) : List (String × JSON) :=
  match kvs with
  | [] => []
  | (k', v') :: rest => if k' = k then rest else (k', v') :: dpop rest k

/-- `k in d` on a python dict. -/
def dmem (kvs : List (String × JSON)) (k : String) : Bool :=
  (dget kvs k).isSome

/-- The `if x is not None: obj[k] = f(x)` statement pattern. -/
def dsetOpt {α : Type} (o : List (String × JSON)) (k : String) (f : α → JSON) :
    Option α → List (String × JSON)
  | some v => dset o k (f v)
  | none => o

/-- The `if s: obj[k] = s` statement pattern for an optional string: both a
missing and an empty string are dropped. -/
def dsetStr (o : List (String × JSON)) (k : String) :
    Option String → List (String × JSON)
  | some s => if s != "" then dset o k (.str s) else o
  | none => o

/-- Python truthiness of a JSON value (`if x:`): `None`, `False`, `0`, `""`,
`[]` and `{}` are falsy, everything else is truthy. -/
def jsonTruthy : JSON → Bool
  | .null => false
  | .bool b => b
  | .num n => n != 0
  | .str s => s != ""
  | .arr xs => !xs.isEmpty
  | .obj kvs => !kvs.isEmpty

/-! ## RPC codec

From `RpcRequest` / `RpcResult` / `RpcError` in `sweep.py` (lines 1017-1130).
Fields annotated `RpcId`/`RpcParams`/`Any` in the source are stored and
forwarded without validation at runtime, so they are modelled as raw `JSON`
values, with `JSON.null` standing for python `None`. -/

/-- `RpcRequest(method, params, id)`.  `params` is `list | dict | None` and
`id` is `int | str | None` by annotation; both travel unvalidated. -/
structure RpcRequest where
  method : String
  params : JSON
  id : JSON

/-- `RpcRequest.serialize`: `{"method": m}` plus `params`/`id` when not
`None`. -/
def RpcRequest.serialize (r : RpcRequest) : List (String × JSON) :=
  let request := [("method", JSON.str r.method)]
  let request := match r.params with
    | .null => request
    | p => dset request "params" p
  match r.id with
  | .null => request
  | i => dset request "id" i

/-- `RpcRequest.deserialize`: `method` must be a string and `params` must be
absent/`None`, a list, or a dict; `id` is taken verbatim. -/
def RpcRequest.deserialize (o : List (String × JSON)) : Option RpcRequest :=
  match dget o "method" with
  | some (.str m) =>
    match (dget o "params").getD .null with
    | .null => some ⟨m, .null, (dget o "id").getD .null⟩
    | .arr xs => some ⟨m, .arr xs, (dget o "id").getD .null⟩
    | .obj kvs => some ⟨m, .obj kvs, (dget o "id").getD .null⟩
    | _ => none
  | _ => none

/-- `RpcResult(result, id)`. -/
structure RpcResult where
  result : JSON
  id : JSON

/-- `RpcResult.serialize`: `{"result": r}` plus `id` when not `None`. -/
def RpcResult.serialize (r : RpcResult) : List (String × JSON) :=
  let response := [("result", r.result)]
  match r.id with
  | .null => response
  | i => dset response "id" i

/-- `RpcResult.deserialize`: recognized by presence of the `result` key
(`"result" not in obj` check), even when its value is `null`. -/
def RpcResult.deserialize (o : List (String × JSON)) : Option RpcResult :=
  if dmem o "result" then
    some ⟨(dget o "result").getD .null, (dget o "id").getD .null⟩
  else none

/-- `RpcError(code, message, data, id)`.  `code` and `message` are validated
by `isinstance` on the inbound path; `data` (`str | None`) and `id` travel
unvalidated and are modelled as raw `JSON`. -/
structure RpcError where
  code : Int
  message : String
  data : JSON
  id : JSON

/-- `RpcError.serialize`: `{"error": {"code": c, "message": m [, "data": d]}}`
plus `id` when not `None`. -/
def RpcError.serialize (e : RpcError) : List (String × JSON) :=
  let error := [("code", JSON.num e.code), ("message", JSON.str e.message)]
  let error := match e.data with
    | .null => error
    | d => dset error "data" d
  let response := [("error", JSON.obj error)]
  match e.id with
  | .null => response
  | i => dset response "id" i

/-- `RpcError.deserialize`.  The source reads `obj.get("error")` and calls
`.get` on it: a present non-dict `error` value raises `AttributeError`
(modelled as `Except.error`); an absent or `None` value fails the
classification cleanly.  `isinstance(code, int)` also accepts python
booleans (a subclass of `int`), modelled by reading `true`/`false` as
`1`/`0`. -/
def RpcError.deserialize (o : List (String × JSON)) :
    Except Unit (Option RpcError) :=
  match dget o "error" with
  | none => .ok none
  | some .null => .ok none
  | some (.obj error) =>
    let idv := (dget o "id").getD .null
    let datav := (dget error "data").getD .null
    match dget error "code" with
    | some (.num code) =>
      match dget error "message" with
      | some (.str message) => .ok (some ⟨code, message, datav, idv⟩)
      | _ => .ok none
    | some (.bool b) =>
      match dget error "message" with
      | some (.str message) =>
        .ok (some ⟨if b then 1 else 0, message, datav, idv⟩)
      | _ => .ok none
    | _ => .ok none
  | some _ => .error ()

/-- `RpcError.invalid_request`: code `-32600`. -/
def RpcError.invalid_request (data : JSON) (id : JSON) : RpcError :=
  ⟨-32600, "Invalid request", data, id⟩

/-- `RpcError.invalid_params`: code `-32602`. -/
def RpcError.invalid_params (data : JSON) (id : JSON) : RpcError :=
  ⟨-32602, "Invalid params", data, id⟩

/-- `RpcMessage = RpcRequest | RpcError | RpcResult`. -/
inductive RpcMessage where
  | req (r : RpcRequest)
  | err (e : RpcError)
  | res (r : RpcResult)

/-- Outbound serialization of any message. -/
def RpcMessage.serialize : RpcMessage → List (String × JSON)
  | .req r => r.serialize
  | .err e => e.serialize
  | .res r => r.serialize

/-- Inbound classification chain from `RpcPeer.__reader`:
`RpcRequest.deserialize(obj) or RpcError.deserialize(obj) or
RpcResult.deserialize(obj)` — tried in that order, the first that validates
wins.  `Except.error` models the `AttributeError` escape of
`RpcError.deserialize` on a present non-dict `"error"` value. -/
def classify (o : List (String × JSON)) : Except Unit (Option RpcMessage) :=
  match RpcRequest.deserialize o with
  | some r => .ok (some (.req r))
  | none =>
    match RpcError.deserialize o with
    | .error e => .error e
    | .ok (some er) => .ok (some (.err er))
    | .ok none =>
      match RpcResult.deserialize o with
      | some r => .ok (some (.res r))
      | none => .ok none

/-- Outcome of one iteration of `RpcPeer.__reader` on a parsed line.
`crash` stands for a deserializer raising `AttributeError`: the exception
escapes `__reader`, whose `serve` wrapper catches only `CancelledError` and
`ConnectionResetError`, so the peer terminates and nothing is submitted. -/
inductive ReaderAction where
  | submitError (e : RpcError)
  | handle (m : RpcMessage)
  | crash

/-- One iteration of `RpcPeer.__reader` after `json.loads` produced the dict
`o` from the raw line text `raw`: classify; on a completed chain with no
match submit an Invalid-Request error with the payload's `id` (when
present) and the raw text as `data`; on a match hand the message to
`__handle_message`; on a raising chain, crash. -/
def readerStep (raw : String) (o : List (String × JSON)) : ReaderAction :=
  match classify o with
  | .error _ => .crash
  | .ok none =>
    .submitError (RpcError.invalid_request (.str raw) ((dget o "id").getD .null))
  | .ok (some m) => .handle m

/-- One iteration of `RpcPeer.__reader` on the value `json.loads` produced
from the raw line `raw`, which need not be an object: a non-dict payload
(a bare number, string, list, boolean or null) raises `AttributeError` at
`obj.get("method")` inside `RpcRequest.deserialize`, terminating the
reader without submitting anything. -/
def readerStepLine (raw : String) (v : JSON) : ReaderAction :=
  match v with
  | .obj kvs => readerStep raw kvs
  | _ => .crash

/-- Well-formedness of `RpcRequest.params` (`RpcParams = list | dict | None`):
exactly the shapes `RpcRequest.serialize` is ever applied to. -/
def paramsWf : JSON → Bool
  | .null => true
  | .arr _ => true
  | .obj _ => true
  | _ => false

/-- Well-formedness of a message: requests carry well-typed params (results
and errors round-trip unconditionally). -/
def RpcMessage.wf : RpcMessage → Bool
  | .req r => paramsWf r.params
  | .err _ => true
  | .res _ => true

/-! ## RPC peer — outbound `call` and `notify`

From `RpcPeer` in `sweep.py` (lines 1139-1232).  Only the state touched by
the two outbound entry points is modelled: the pending-request map
(`__requests`, here just the set of pending ids since the attached future is
opaque), the monotonic id counter (`__requests_next_id`), the write queue
(`__write_queue`) and the termination flag (`__is_terminated`).  The
writer-wake-up `Event` fired by `__submit_message` carries no state relevant
to these claims. -/

structure PeerState where
  requests : List Int
  requests_next_id : Int
  write_queue : List RpcMessage
  is_terminated : Bool

/-- Result of `RpcPeer.call` up to its first suspension point. -/
inductive CallOutcome where
  | runtimeError
  | raised (e : RpcError)
  | awaiting (id : Int)

/-- `RpcPeer.call(method, *args, **kwargs)` up to `await future`: fail fast
when terminated; allocate the next id; reject mixed positional/named
arguments by raising `RpcError.invalid_params` (before the pending slot is
inserted and before any message is queued); otherwise insert the slot and
submit the request. -/
def RpcPeer.call (st : PeerState) (method : String) (args : List JSON)
    (kwargs : List (String × JSON)) : CallOutcome × PeerState :=
  if st.is_terminated then (.runtimeError, st)
  else
    let id := st.requests_next_id
    let st := { st with requests_next_id := st.requests_next_id + 1 }
    if !args.isEmpty && !kwargs.isEmpty then
      (.raised (RpcError.invalid_params (.str "cannot mix args and kwargs") .null), st)
    else
      let params : JSON :=
        if !args.isEmpty then .arr args
        else if !kwargs.isEmpty then .obj kwargs
        else .null
      let st := { st with
        requests := st.requests ++ [id],
        write_queue := st.write_queue ++ [.req ⟨method, params, .num id⟩] }
      (.awaiting id, st)

/-- Result of `RpcPeer.notify`. -/
inductive NotifyOutcome where
  | runtimeError
  | raised (e : RpcError)
  | sent

/-- `RpcPeer.notify(method, *args, **kwargs)`: like `call` but with a null
id, no id allocation and no pending slot. -/
def RpcPeer.notify (st : PeerState) (method : String) (args : List JSON)
    (kwargs : List (String × JSON)) : NotifyOutcome × PeerState :=
  if st.is_terminated then (.runtimeError, st)
  else if !args.isEmpty && !kwargs.isEmpty then
    (.raised (RpcError.invalid_params (.str "cannot mix args and kwargs") .null), st)
  else
    let params : JSON :=
      if !args.isEmpty then .arr args
      else if !kwargs.isEmpty then .obj kwargs
      else .null
    (.sent, { st with write_queue := st.write_queue ++ [.req ⟨method, params, .null⟩] })

/-! ## Event (multi-consumer notifier)

From `Event` in `sweep.py` (lines 1399-1447).  A durable handler is a
callable returning `True` ("continue") or `False` ("drop"), or raising; the
three outcomes are reified so that `fire` can be a pure function.  Handlers
and awaiters are carried with identities (`id : Nat`) so the fire log can
state "invoked exactly once".  The python sets are modelled as lists (the
snapshot-then-iterate of `__call__` fixes one iteration order). -/

/-- Outcome of calling a durable handler on a value. -/
inductive HandlerResult where
  | cont
  | drop
  | raised
  deriving DecidableEq, Repr

/-- A durable handler: identity plus behaviour on each event value. -/
structure Handler (E : Type) where
  id : Nat
  behavior : E → HandlerResult

/-- A one-shot awaiter (`Future`): identity plus its `done()` flag. -/
structure EvFuture where
  id : Nat
  done : Bool
  deriving DecidableEq, Repr

/-- State of an `Event`: `_handlers` and `_futures`. -/
structure EventState (E : Type) where
  handlers : List (Handler E)
  futures : List EvFuture

/-- The handler loop of `Event.__call__`: every snapshot handler is called
exactly once (logged as `(id, event)`), in order; a handler returning `True`
is re-inserted; one returning `False` or raising is not, and an exception
does not stop the loop (the source warns and continues). -/
def fireHandlers {E : Type} (event : E) :
    List (Handler E) → List (Handler E) × List (Nat × E)
  | [] => ([], [])
  | h :: rest =>
    let (kept, log) := fireHandlers event rest
    match h.behavior event with
    | .cont => (h :: kept, (h.id, event) :: log)
    | .drop => (kept, (h.id, event) :: log)
    | .raised => (kept, (h.id, event) :: log)

/-- The awaiter loop of `Event.__call__`: every snapshot future that is not
already done is completed with the value (logged as `(id, event)`); done
futures are skipped. -/
def fireFutures {E : Type} (event : E) : List EvFuture → List (Nat × E)
  | [] => []
  | f :: rest =>
    if f.done then fireFutures event rest
    else (f.id, event) :: fireFutures event rest

/-- `Event.__call__(event)`: snapshot and clear both sets, run the handler
loop, then the awaiter loop.  Returns the new state together with the log of
handler invocations and future completions. -/
def Event.fire {E : Type} (st : EventState E) (event : E) :
    EventState E × (List (Nat × E) × List (Nat × E)) :=
  let (kept, invoked) := fireHandlers event st.handlers
  let completed := fireFutures event st.futures
  (⟨kept, []⟩, (invoked, completed))

/-! ## View model

From the `View` hierarchy in `sweep.py` (lines 1453-1954).  Geometric floats
(`_4Float`, flex factors) are modelled as integers; they are serialized
opaquely and no claim computes with them. -/

/-- `Direction` enum. -/
inductive Direction where
  | row
  | col
  deriving DecidableEq

/-- `Direction.value`. -/
def Direction.value : Direction → String
  | .row => "horizontal"
  | .col => "vertical"

/-- `Justify` enum (`end` is spelled `end'`: Lean keyword). -/
inductive Justify where
  | start
  | center
  | end'
  | spaceBetween
  | spaceAround
  | spaceEvenly
  deriving DecidableEq

/-- `Justify.value`. -/
def Justify.value : Justify → String
  | .start => "start"
  | .center => "center"
  | .end' => "end"
  | .spaceBetween => "space-between"
  | .spaceAround => "space-around"
  | .spaceEvenly => "space-evenly"

/-- `Align` enum (`end` is spelled `end'`: Lean keyword). -/
inductive Align where
  | start
  | center
  | end'
  | expand
  | shrink
  deriving DecidableEq

/-- `Align.value`. -/
def Align.value : Align → String
  | .start => "start"
  | .center => "center"
  | .end' => "end"
  | .expand => "expand"
  | .shrink => "shrink"

/-- A `_4Float` quadruple as JSON. -/
def json4 : Int × Int × Int × Int → JSON
  | (a, b, c, d) => .arr [.num a, .num b, .num c, .num d]

/-- An `(h, w)` pair as JSON. -/
def json2 : Int × Int → JSON
  | (a, b) => .arr [.num a, .num b]

/-- `IconFrame` (decorative frame of an `Icon`). -/
structure IconFrame where
  margin : Option (Int × Int × Int × Int)
  border_width : Option (Int × Int × Int × Int)
  border_radius : Option (Int × Int × Int × Int)
  border_color : Option String
  padding : Option (Int × Int × Int × Int)
  fill_color : Option String

/-- `IconFrame.to_json`: each attribute is kept only when truthy (an absent
tuple, or an absent/empty color string, is dropped). -/
def IconFrame.to_json (f : IconFrame) : JSON :=
  let o : List (String × JSON) := []
  let o := match f.margin with
    | some m => dset o "margin" (json4 m)
    | none => o
  let o := match f.border_width with
    | some w => dset o "border_width" (json4 w)
    | none => o
  let o := match f.border_radius with
    | some r => dset o "border_radius" (json4 r)
    | none => o
  let o := match f.border_color with
    | some c => if c != "" then dset o "border_color" (.str c) else o
    | none => o
  let o := match f.padding with
    | some p => dset o "padding" (json4 p)
    | none => o
  let o := match f.fill_color with
    | some c => if c != "" then dset o "fill_color" (.str c) else o
    | none => o
  .obj o

/-- `Icon.PATH_CHARS`: the only characters allowed in an svg path. -/
def pathChars : List Char := "+-e0123456789.,MmZzLlHhVvCcSsQqTtAa\r\t\n ".toList

/-- `is_path` inside `Icon.from_json`: `set(path) - Icon.PATH_CHARS` empty. -/
def isPath (path : String) : Bool :=
  path.toList.all (fun c => pathChars.contains c)

/-- `Icon`: svg path plus optional attributes. -/
structure Icon where
  path : String
  view_box : Option (Int × Int × Int × Int)
  fill_rule : Option String
  size : Option (Int × Int)
  fallback : Option String
  frame : Option IconFrame

/-- `Icon.to_json`: starts from `{"path": p, "type": "glyph"}`; `view_box`,
`fill_rule` and `size` are kept when not `None`, `fallback` when truthy
(non-empty), `frame` when present (an `IconFrame` object is always truthy). -/
def Icon.to_json (i : Icon) : JSON :=
  let o := [("path", JSON.str i.path), ("type", JSON.str "glyph")]
  let o := match i.view_box with
    | some vb => dset o "view_box" (json4 vb)
    | none => o
  let o := match i.fill_rule with
    | some fr => dset o "fill_rule" (.str fr)
    | none => o
  let o := match i.size with
    | some s => dset o "size" (json2 s)
    | none => o
  let o := match i.fallback with
    | some fb => if fb != "" then dset o "fallback" (.str fb) else o
    | none => o
  match i.frame with
  | some fr => .obj (dset o "frame" fr.to_json)
  | none => .obj o

/-- Reader for optional string attributes.  The source stores
`obj.get(...)` raw; values of the annotated type are modelled, any other
shape maps to `None`. -/
def readStr : Option JSON → Option String
  | some (.str s) => some s
  | _ => none

/-- Reader for optional integer attributes (same raw-storage caveat as
`readStr`). -/
def readInt : Option JSON → Option Int
  | some (.num n) => some n
  | _ => none

/-- Reader for optional 4-tuples (same raw-storage caveat as `readStr`). -/
def read4 : Option JSON → Option (Int × Int × Int × Int)
  | some (.arr [.num a, .num b, .num c, .num d]) => some (a, b, c, d)
  | _ => none

/-- Reader for optional pairs (same raw-storage caveat as `readStr`). -/
def read2 : Option JSON → Option (Int × Int)
  | some (.arr [.num a, .num b]) => some (a, b)
  | _ => none

/-- `Icon.from_json`: a dict needs a valid `"path"`; the other attributes
are read unvalidated and `frame` is never parsed; a bare string that passes
path validation becomes `Icon(path)`; anything else is rejected. -/
def Icon.from_json : JSON → Option Icon
  | .obj kvs =>
    match dget kvs "path" with
    | some (.str path) =>
      if isPath path then
        some ⟨path, read4 (dget kvs "view_box"), readStr (dget kvs "fill_rule"),
          read2 (dget kvs "size"), readStr (dget kvs "fallback"), none⟩
      else none
    | _ => none
  | .str s => if isPath s then some ⟨s, none, none, none, none, none⟩ else none
  | _ => none

/-- `Text`: a tree of chunks, each chunk a string or a list of sub-texts,
with optional glyph and face. -/
inductive TextV where
  | mk (chunks : String ⊕ List TextV) (glyph : Option Icon) (face : Option String)

/-- The object-or-collapse step of `Text.to_json`'s `to_json_rec`: a node
with neither glyph nor face collapses to its bare chunks; otherwise an
object `{"text": chunks [, "glyph": g] [, "face": f]}` is emitted. -/
def textNodeJson (chunks : JSON) (glyph : Option Icon) (face : Option String) :
    JSON :=
  match glyph, face with
  | none, none => chunks
  | _, _ =>
    let o := [("text", chunks)]
    let o := match glyph with
      | some g => dset o "glyph" g.to_json
      | none => o
    match face with
    | some f => .obj (dset o "face" (.str f))
    | none => .obj o

mutual

/-- `to_json_rec` inside `Text.to_json`. -/
def TextV.jsonRec : TextV → JSON
  | .mk (.inl s) glyph face => textNodeJson (.str s) glyph face
  | .mk (.inr ts) glyph face => textNodeJson (.arr (TextV.jsonRecList ts)) glyph face

/-- Chunk-list serialization of `Text.to_json`. -/
def TextV.jsonRecList : List TextV → List JSON
  | [] => []
  | t :: ts => TextV.jsonRec t :: TextV.jsonRecList ts

end

/-- The view tree: `ViewRef`, `TraceLayout`, `Tag`, `Flex`, `Container`,
`Text`, `Image` and `Icon`.  A flex child is
`(view, flex?, face?, align)` as in `FlexChild`. -/
inductive View where
  | ref (ref : Int)
  | traceLayout (view : View) (msg : String)
  | tag (tag : String) (view : View)
  | flex (direction : Direction) (justify : Justify)
      (children : List (View × Option Int × Option String × Align))
  | container (child : View) (face : Option String)
      (vertical : Align) (horizontal : Align)
      (size : Int × Int) (margins : Int × Int × Int × Int)
  | text (t : TextV)
  | image (size : Int × Int) (channels : Int) (data : String)
  | icon (i : Icon)

/-- The non-recursive tail of `Container.to_json`: `face` when not `None`,
alignments when not `start`, `size`/`margins` when non-zero. -/
def containerJson (childJson : JSON) (face : Option String)
    (vertical horizontal : Align) (size : Int × Int)
    (margins : Int × Int × Int × Int) : JSON :=
  let o := [("type", JSON.str "container"), ("child", childJson)]
  let o := match face with
    | some f => dset o "face" (.str f)
    | none => o
  let o := if vertical = .start then o else dset o "vertical" (.str vertical.value)
  let o := if horizontal = .start then o else dset o "horizontal" (.str horizontal.value)
  let o := if size = (0, 0) then o else dset o "size" (json2 size)
  if margins = (0, 0, 0, 0) then .obj o else .obj (dset o "margins" (json4 margins))

/-- The non-recursive tail of a flex child's serialization: `flex` when not
`None`, `align` when not `start`, `face` when not `None`, then the child's
view under `"view"`. -/
def flexChildJson (childJson : JSON) (flex : Option Int) (face : Option String)
    (align : Align) : JSON :=
  let o : List (String × JSON) := []
  let o := match flex with
    | some fl => dset o "flex" (.num fl)
    | none => o
  let o := if align = .start then o else dset o "align" (.str align.value)
  let o := match face with
    | some f => dset o "face" (.str f)
    | none => o
  .obj (dset o "view" childJson)

mutual

/-- `View.to_json`, one clause per variant's `to_json` in the source. -/
def View.to_json : View → JSON
  | .ref r => .obj [("type", .str "ref"), ("ref", .num r)]
  | .traceLayout v msg =>
    .obj [("type", .str "trace-layout"), ("msg", .str msg), ("view", View.to_json v)]
  | .tag t v =>
    .obj [("type", .str "tag"), ("tag", .str t), ("view", View.to_json v)]
  | .flex d j cs =>
    .obj [("type", .str "flex"), ("direction", .str d.value),
      ("justify", .str j.value), ("children", .arr (View.childrenJson cs))]
  | .container child face v h size margins =>
    containerJson (View.to_json child) face v h size margins
  | .text t => .obj [("type", .str "text"), ("text", TextV.jsonRec t)]
  | .image size channels data =>
    .obj [("type", .str "image"), ("size", json2 size),
      ("channels", .num channels), ("data", .str data)]
  | .icon i => i.to_json

/-- The `children_json` loop of `Flex.to_json`. -/
def View.childrenJson :
    List (View × Option Int × Option String × Align) → List JSON
  | [] => []
  | (v, fl, fc, al) :: cs =>
    flexChildJson (View.to_json v) fl fc al :: View.childrenJson cs

end

/-! ## Field and Candidate

From `Field` (lines 166-224) and `Candidate` (lines 232-399). -/

/-- `Field`: a styled atom of a candidate. -/
structure Field where
  text : String
  glyph : Option Icon
  view : Option View
  active : Bool
  face : Option String
  ref : Option Int

/-- `Field.to_json`: `text` when truthy (non-empty), `active` only when
false, `glyph`/`view` when present, `face` when truthy (non-empty),
`ref` when not `None`. -/
def Field.to_json (f : Field) : JSON :=
  let o : List (String × JSON) := []
  let o := if f.text != "" then dset o "text" (.str f.text) else o
  let o := if f.active then o else dset o "active" (.bool false)
  let o := match f.glyph with
    | some g => dset o "glyph" g.to_json
    | none => o
  let o := match f.view with
    | some v => dset o "view" v.to_json
    | none => o
  let o := match f.face with
    | some fc => if fc != "" then dset o "face" (.str fc) else o
    | none => o
  match f.ref with
  | some r => .obj (dset o "ref" (.num r))
  | none => .obj o

/-- `Field.from_json`: only dicts parse; `text` is `obj.get("text") or ""`
(a falsy or missing value becomes the empty string), `active` defaults to
`True` when absent/`None` and is otherwise kept for its truth value,
`glyph` goes through `Icon.from_json`, `view` is never parsed, `face` and
`ref` are read raw (see `readStr`). -/
def Field.from_json : JSON → Option Field
  | .obj kvs =>
    let text := match dget kvs "text" with
      | some (.str s) => s
      | _ => ""
    let active := match dget kvs "active" with
      | none => true
      | some .null => true
      | some v => jsonTruthy v
    some ⟨text, Icon.from_json ((dget kvs "glyph").getD .null), none, active,
      readStr (dget kvs "face"), readInt (dget kvs "ref")⟩
  | _ => none

/-- `Candidate`: a semantic description of one row.  `preview_flex` is a
python float modelled as an integer (it is carried opaquely). -/
structure Candidate where
  target : Option (List Field)
  extra : Option (List (String × JSON))
  right : Option (List Field)
  right_offset : Int
  right_face : Option String
  preview : Option (List Field)
  preview_flex : Int
  hotkey : Option String

/-- `Candidate.extra_update(**entries)` for a single entry: create the
`extra` dict on demand and update it in place. -/
def Candidate.extra_update (c : Candidate) (k : String) (v : JSON) : Candidate :=
  { c with extra := some (dset (c.extra.getD []) k v) }

/-- The `if self.target: obj["target"] = [field.to_json() for field in
self.target]` statement pattern: a missing or empty field list is
dropped. -/
def dsetFields (o : List (String × JSON)) (k : String) :
    Option (List Field) → List (String × JSON)
  | some (f :: fs) => dset o k (.arr ((f :: fs).map Field.to_json))
  | _ => o

/-- `Candidate.to_json`: a copy of `extra` is the base object; `target`,
`right` and `preview` are added when non-empty, `right_offset` and
`preview_flex` when non-zero, `right_face` when truthy, and `hotkey`
whenever it is not `None` (even if empty). -/
def Candidate.to_json (c : Candidate) : JSON :=
  let o := c.extra.getD []
  let o := dsetFields o "target" c.target
  let o := dsetFields o "right" c.right
  let o := if c.right_offset = 0 then o else dset o "right_offset" (.num c.right_offset)
  let o := dsetStr o "right_face" c.right_face
  let o := dsetFields o "preview" c.preview
  let o := if c.preview_flex = 0 then o else dset o "preview_flex" (.num c.preview_flex)
  .obj (dsetOpt o "hotkey" JSON.str c.hotkey)

/-- `fields_from_json` inside `Candidate.from_json`: only a list parses;
entries that fail `Field.from_json` are skipped; an empty result collapses
to `None`. -/
def fields_from_json : Option JSON → Option (List Field)
  | some (.arr xs) =>
    match xs.filterMap Field.from_json with
    | [] => none
    | fs => some fs
  | _ => none

/-- The default candidate (`Candidate()`). -/
def Candidate.empty : Candidate :=
  ⟨none, none, none, 0, none, none, 0, none⟩

/-- `Candidate.from_json`: a bare string becomes
`Candidate().target_push(s)`; a dict is consumed by popping `target`,
`right`, `offset` (note: not `right_offset`), `right_face`, `preview`,
`preview_flex` and `hotkey` in that order, the remaining entries becoming
`extra` (or `None` when nothing remains); `x or 0` keeps a popped truthy
numeric offset/flex and collapses falsy ones to zero. -/
def Candidate.from_json : JSON → Option Candidate
  | .str s =>
    some { Candidate.empty with target := some [⟨s, none, none, true, none, none⟩] }
  | .obj kvs =>
    let target := fields_from_json (dget kvs "target")
    let o := dpop kvs "target"
    let right := fields_from_json (dget o "right")
    let o := dpop o "right"
    let right_offset := match dget o "offset" with
      | some (.num n) => n
      | _ => 0
    let o := dpop o "offset"
    let right_face := readStr (dget o "right_face")
    let o := dpop o "right_face"
    let preview := fields_from_json (dget o "preview")
    let o := dpop o "preview"
    let preview_flex := match dget o "preview_flex" with
      | some (.num n) => n
      | _ => 0
    let o := dpop o "preview_flex"
    let hotkey := readStr (dget o "hotkey")
    let o := dpop o "hotkey"
    some ⟨target, (if o.isEmpty then none else some o), right, right_offset,
      right_face, preview, preview_flex, hotkey⟩
  | _ => none

/-! ## Sweep client

From the `Sweep` class in `sweep.py` (lines 515-983): the per-window item
store (`__items`, a `defaultdict(list)`), the item identity indirection
(`items_extend` / `__item_get` / `item_update`), the bind dispatch of
`__aiter__`, and the `field_missing` / `view_missing` resolver protocol. -/

/-- `WindowId = str | int`. -/
inductive WindowId where
  | str (s : String)
  | int (n : Int)
  deriving DecidableEq, Repr

/-- `uid or self.__window_uid_current`: python truthiness, so not only
`None` but also `""` and `0` fall back to the current window. -/
def resolveUid (uid : Option WindowId) (current : WindowId) : WindowId :=
  match uid with
  | none => current
  | some (.str s) => if s = "" then current else .str s
  | some (.int n) => if n = 0 then current else .int n

/-- A caller-owned item, as the `isinstance(item, ToCandidate)` capability
check sees it: a `Candidate`, a `CandidateTagged` (whose `to_candidate`
returns the wrapped candidate; the tag is an opaque caller value), or any
other value (a plain string, a pre-formed JSON object, ...), which does not
implement the conversion. -/
inductive SwItem where
  | cand (c : Candidate)
  | tagged (tag : JSON) (c : Candidate)
  | plain (j : JSON)

/-- `item.to_candidate()` when the item implements `ToCandidate`. -/
def SwItem.toCandidate : SwItem → Option Candidate
  | .cand c => some c
  | .tagged _ c => some c
  | .plain _ => none

/-- The in-place mutation of `candidate.extra_update(_sweep_item_index=i)`
as seen through the caller's object: the wrapped candidate gains the stamp,
a plain item is untouched. -/
def SwItem.stamp (it : SwItem) (idx : Nat) : SwItem :=
  match it with
  | .cand c => .cand (c.extra_update "_sweep_item_index" (.num idx))
  | .tagged t c => .tagged t (c.extra_update "_sweep_item_index" (.num idx))
  | .plain j => .plain j

/-- Client state relevant to the item claims: the per-window store
`__items` and the current window id. -/
structure SweepState where
  items : List (WindowId × List SwItem)
  window_uid_current : WindowId

/-- `self.__items[k]` on the `defaultdict(list)`: the stored list, or the
empty list for an untouched window. -/
def storeGet (m : List (WindowId × List SwItem)) (k : WindowId) : List SwItem :=
  match m with
  | [] => []
  | (k', v) :: rest => if k' = k then v else storeGet rest k

/-- Rebinding a window's store. -/
def storeSet (m : List (WindowId × List SwItem)) (k : WindowId)
    (v : List SwItem) : List (WindowId × List SwItem) :=
  match m with
  | [] => [(k, v)]
  | (k', v') :: rest =>
    if k' = k then (k', v) :: rest else (k', v') :: storeSet rest k v

/-- The item loop of `Sweep.items_extend`: an item implementing
`ToCandidate` is converted, its candidate is stamped in place with
`_sweep_item_index = len(items_cache)`, its JSON form goes on the wire and
the (now stamped) caller object into the cache; any other item goes both on
the wire and into the cache verbatim.  Returns the final cache and the wire
forms in submission order (the adaptive 50 ms / 1.25× batching of the
source only splits this same sequence into several `items_extend` RPC
messages and is not modelled). -/
def items_extend_go : List SwItem → List SwItem → List SwItem × List JSON
  | cache, [] => (cache, [])
  | cache, .cand c :: rest =>
    let c' := c.extra_update "_sweep_item_index" (.num cache.length)
    let (cache', wire) := items_extend_go (cache ++ [.cand c']) rest
    (cache', c'.to_json :: wire)
  | cache, .tagged t c :: rest =>
    let c' := c.extra_update "_sweep_item_index" (.num cache.length)
    let (cache', wire) := items_extend_go (cache ++ [.tagged t c']) rest
    (cache', c'.to_json :: wire)
  | cache, .plain j :: rest =>
    let (cache', wire) := items_extend_go (cache ++ [.plain j]) rest
    (cache', j :: wire)

/-- `Sweep.items_extend(items, uid)`: run the item loop on the store of
`uid or current`. -/
def items_extend (st : SweepState) (itemsIn : List SwItem)
    (uid : Option WindowId) : SweepState × List JSON :=
  let key := resolveUid uid st.window_uid_current
  let (cache', wire) := items_extend_go (storeGet st.items key) itemsIn
  ({ st with items := storeSet st.items key cache' }, wire)

/-- Python list indexing `xs[i]`: negative indices count from the end;
out-of-range raises (`none`). -/
def pyIndex {α : Type} (xs : List α) (i : Int) : Option α :=
  let j := if 0 ≤ i then i else (xs.length : Int) + i
  if h : 0 ≤ j ∧ j < (xs.length : Int) then
    some (xs.get ⟨j.toNat, by omega⟩)
  else none

/-- `Sweep.__item_get(uid, item)`: a dict carrying `_sweep_item_index`
smaller than the store length is replaced by the stored item at that index
(python indexing, so a negative stamp counts from the end); everything else
is returned verbatim.  `Except.error` models the `IndexError` of a negative
index reaching before the front and the `TypeError` of comparing a
non-numeric stamp with `len(items)`; a `True`/`False` stamp is a python
`int` (`1`/`0`). -/
def item_get (st : SweepState) (uid : Option WindowId) (item : JSON) :
    Except Unit SwItem :=
  match item with
  | .obj kvs =>
    let items := storeGet st.items (resolveUid uid st.window_uid_current)
    match dget kvs "_sweep_item_index" with
    | some (.num idx) =>
      if idx < (items.length : Int) then
        match pyIndex items idx with
        | some it => .ok it
        | none => .error ()
      else .ok (.plain (.obj kvs))
    | some (.bool b) =>
      if (if b then (1 : Int) else 0) < (items.length : Int) then
        match pyIndex items (if b then 1 else 0) with
        | some it => .ok it
        | none => .error ()
      else .ok (.plain (.obj kvs))
    | some .null => .ok (.plain (.obj kvs))
    | none => .ok (.plain (.obj kvs))
    | some _ => .error ()
  | _ => .ok (.plain item)

/-- `Sweep.items_current`'s restoration step: the sweeper's reply goes
through `__item_get`. -/
def items_current_restore (st : SweepState) (uid : Option WindowId)
    (reply : JSON) : Except Unit SwItem :=
  item_get st uid reply

/-- `Sweep.items_marked`'s restoration step: every element of the sweeper's
reply goes through `__item_get`. -/
def items_marked_restore (st : SweepState) (uid : Option WindowId)
    (reply : List JSON) : List (Except Unit SwItem) :=
  reply.map (item_get st uid)

/-- The `select` branch of `Sweep.__aiter__`: the event's items are
restored through `__item_get` with the event's `uid`. -/
def select_restore (st : SweepState) (uid : Option WindowId)
    (wireItems : List JSON) : List (Except Unit SwItem) :=
  wireItems.map (item_get st uid)

/-- `Sweep.item_update(index, item, uid)`: an index at or past the end of
the window's store raises `IndexError` before the store is touched and
before anything is submitted to the peer (result `(st, none, true)`); a
valid index replaces the stored element (the caller's object, stamped in
place when it implements `ToCandidate`) and then sends the corresponding
wire form.  (The `defaultdict` may materialise an empty binding for an
untouched window on the error path; that binding is observationally equal
to no binding.) -/
def item_update (st : SweepState) (index : Nat) (item : SwItem)
    (uid : Option WindowId) : SweepState × Option JSON × Bool :=
  let key := resolveUid uid st.window_uid_current
  let items := storeGet st.items key
  if index ≥ items.length then (st, none, true)
  else
    match item with
    | .cand c =>
      let c' := c.extra_update "_sweep_item_index" (.num index)
      ({ st with items := storeSet st.items key (items.set index (.cand c')) },
        some c'.to_json, false)
    | .tagged t c =>
      let c' := c.extra_update "_sweep_item_index" (.num index)
      ({ st with items := storeSet st.items key (items.set index (.tagged t c')) },
        some c'.to_json, false)
    | .plain j =>
      ({ st with items := storeSet st.items key (items.set index (.plain j)) },
        some j, false)

/-- Outcome of the `bind` branch of `Sweep.__aiter__`. -/
inductive BindEmit where
  | selectEv (uid : WindowId) (items : List SwItem)
  | bindEv (uid : WindowId) (tag : String) (key : Option String)
  | silent

/-- The `bind` branch of `Sweep.__aiter__` for a notification
`{uid, tag?, key?}` (`uid = params["uid"]`, `tag = params.get("tag", "")`,
`key = params.get("key", None)`): with no handler registered for `tag`, a
`SweepBind` is yielded; with a handler, the handler is called and a
non-`None` result is yielded as `SweepSelect(uid, [item])`, while a `None`
result yields nothing at all. -/
def bind_step (binds : List (String × (String → Option SwItem)))
    (uid : WindowId) (tag : String) (key : Option String) : BindEmit :=
  match binds.lookup tag with
  | none => .bindEv uid tag key
  | some handler =>
    match handler tag with
    | some item => .selectEv uid [item]
    | none => .silent

/-- The `field_missing` branch of `Sweep.__aiter__` (the `view_missing`
branch is verbatim the same with field↔view renamed): a missing, already
resolved, or resolver-less ref is skipped; otherwise the resolver runs, and
a non-`None` result is registered via `field_register`, which adds the
returned ref to `__field_resolved`.  Modelled from the spec: the sweeper's
`field_register` (not part of the python sources) "registers the result
under the requested id", so registering with an explicit `ref` adds exactly
`ref` to the resolved set.  Returns the new resolved set and the ref the
resolver was invoked on, if any. -/
def field_missing_step (resolver : Option (Int → Option JSON))
    (resolved : List Int) (ref : Option Int) : List Int × Option Int :=
  match ref with
  | none => (resolved, none)
  | some r =>
    if r ∈ resolved then (resolved, none)
    else
      match resolver with
      | none => (resolved, none)
      | some res =>
        match res r with
        | some _field => (resolved ++ [r], some r)
        | none => (resolved, some r)

/-- A sequence of `field_missing` notifications, folded through
`field_missing_step`.  Returns the final resolved set and the refs the
resolver was invoked on, in order. -/
def process_misses (resolver : Option (Int → Option JSON))
    (resolved : List Int) : List (Option Int) → List Int × List Int
  | [] => (resolved, [])
  | ref :: rest =>
    let (resolved', inv) := field_missing_step resolver resolved ref
    let (finalResolved, invs) := process_misses resolver resolved' rest
    (finalResolved, inv.toList ++ invs)

/-- Specification-side description of the item loop's effect on the store:
the submitted items in order, each stamped in place with its final store
position (`n` is the store length at the start of the batch). -/
def stampFrom (n : Nat) : List SwItem → List SwItem
  | [] => []
  | it :: rest => it.stamp n :: stampFrom (n + 1) rest

/-- Specification-side description of the wire form of one submitted item
destined for store position `idx`: the stamped candidate's JSON for
to-candidate items, the value itself otherwise. -/
def wireOne (idx : Nat) : SwItem → JSON
  | .cand c => (c.extra_update "_sweep_item_index" (.num idx)).to_json
  | .tagged _ c => (c.extra_update "_sweep_item_index" (.num idx)).to_json
  | .plain j => j

/-- Specification-side description of the item loop's wire output. -/
def wireFrom (n : Nat) : List SwItem → List JSON
  | [] => []
  | it :: rest => wireOne n it :: wireFrom (n + 1) rest

/-! ## Dictionary lemmas -/

theorem dget_dset_self (o : List (String × JSON)) (k : String) (v : JSON) :
    dget (dset o k v) k = some v := by
  induction o with
  | nil => simp [dget, dset]
  | cons kv rest ih =>
    obtain ⟨k', v'⟩ := kv
    by_cases h : k' = k <;> simp [dget, dset, h, ih]

theorem dget_dset_ne (o : List (String × JSON)) {k k₀ : String} (v : JSON)
    (h : k ≠ k₀) : dget (dset o k v) k₀ = dget o k₀ := by
  induction o with
  | nil => simp [dget, dset, h]
  | cons kv rest ih =>
    obtain ⟨k', v'⟩ := kv
    by_cases hk : k' = k <;> simp [dget, dset, hk, ih]
    subst hk
    simp [h]

theorem dget_dpop_ne (o : List (String × JSON)) {k k₀ : String}
    (h : k ≠ k₀) : dget (dpop o k) k₀ = dget o k₀ := by
  induction o with
  | nil => simp [dget, dpop]
  | cons kv rest ih =>
    obtain ⟨k', v'⟩ := kv
    by_cases hk : k' = k
    · subst hk
      simp [dget, dpop, h]
    · by_cases hk₀ : k' = k₀
      · subst hk₀
        simp [dget, dpop, hk]
      · simp [dget, dpop, hk, hk₀, ih]

theorem isEmpty_false_of_dget {o : List (String × JSON)} {k : String} {v : JSON}
    (h : dget o k = some v) : o.isEmpty = false := by
  cases o with
  | nil => simp [dget] at h
  | cons kv rest => rfl

theorem dget_cons_ne {k k₀ : String} (v : JSON) (o : List (String × JSON))
    (h : k ≠ k₀) : dget ((k, v) :: o) k₀ = dget o k₀ := by
  simp [dget, h]

theorem dget_dsetOpt_ne {α : Type} (o : List (String × JSON)) {k k₀ : String}
    (f : α → JSON) (t : Option α) (h : k ≠ k₀) :
    dget (dsetOpt o k f t) k₀ = dget o k₀ := by
  cases t <;> simp [dsetOpt, dget_dset_ne _ _ h]

theorem dget_dsetStr_ne (o : List (String × JSON)) {k k₀ : String}
    (t : Option String) (h : k ≠ k₀) :
    dget (dsetStr o k t) k₀ = dget o k₀ := by
  cases t with
  | none => rfl
  | some s =>
    by_cases hs : s = "" <;> simp [dsetStr, hs, dget_dset_ne _ _ h]

theorem dget_dsetFields_ne (o : List (String × JSON)) {k k₀ : String}
    (t : Option (List Field)) (h : k ≠ k₀) :
    dget (dsetFields o k t) k₀ = dget o k₀ := by
  rcases t with _ | ⟨_ | ⟨f, fs⟩⟩ <;> simp [dsetFields, dget_dset_ne _ _ h]

theorem dget_ite_dset_ne (c : Prop) [Decidable c] (o : List (String × JSON))
    {k k₀ : String} (v : JSON) (h : k ≠ k₀) :
    dget (if c then o else dset o k v) k₀ = dget o k₀ := by
  split
  · rfl
  · exact dget_dset_ne _ _ h

/-- Any key other than the seven structural keys of `Candidate.to_json`
survives serialization with exactly its binding in `extra` (or its
absence). -/
theorem candidate_to_json_keeps (c : Candidate) (k : String)
    (h1 : k ≠ "target") (h2 : k ≠ "right") (h3 : k ≠ "right_offset")
    (h4 : k ≠ "right_face") (h5 : k ≠ "preview") (h6 : k ≠ "preview_flex")
    (h7 : k ≠ "hotkey") :
    ∃ kvs, c.to_json = .obj kvs ∧ dget kvs k = dget (c.extra.getD []) k := by
  refine ⟨_, rfl, ?_⟩
  rw [dget_dsetOpt_ne _ _ _ (Ne.symm h7), dget_ite_dset_ne _ _ _ (Ne.symm h6),
    dget_dsetFields_ne _ _ (Ne.symm h5), dget_dsetStr_ne _ _ (Ne.symm h4),
    dget_ite_dset_ne _ _ _ (Ne.symm h3), dget_dsetFields_ne _ _ (Ne.symm h2),
    dget_dsetFields_ne _ _ (Ne.symm h1)]

/-- A non-zero `right_offset` is serialized under the key
`"right_offset"`. -/
theorem candidate_to_json_right_offset (c : Candidate)
    (h : c.right_offset ≠ 0) :
    ∃ kvs, c.to_json = .obj kvs ∧
      dget kvs "right_offset" = some (.num c.right_offset) := by
  refine ⟨_, rfl, ?_⟩
  rw [dget_dsetOpt_ne _ _ _ (by decide), dget_ite_dset_ne _ _ _ (by decide),
    dget_dsetFields_ne _ _ (by decide), dget_dsetStr_ne _ _ (by decide)]
  rw [if_neg h]
  exact dget_dset_self _ _ _

theorem req_deserialize_skips_jsonrpc (v : JSON) (o : List (String × JSON)) :
    RpcRequest.deserialize (("jsonrpc", v) :: o) = RpcRequest.deserialize o := by
  simp [RpcRequest.deserialize, dget]

theorem err_deserialize_skips_jsonrpc (v : JSON) (o : List (String × JSON)) :
    RpcError.deserialize (("jsonrpc", v) :: o) = RpcError.deserialize o := by
  simp [RpcError.deserialize, dget]

theorem res_deserialize_skips_jsonrpc (v : JSON) (o : List (String × JSON)) :
    RpcResult.deserialize (("jsonrpc", v) :: o) = RpcResult.deserialize o := by
  simp [RpcResult.deserialize, dmem, dget]

/-! ## Claim theorems -/

/-- Claim C4, counterexample: the serialized form of the outbound request
`{method: "ping"}` carries no `"jsonrpc"` key at all, refuting the claim
that every outbound message is serialized with `"jsonrpc": "2.0"`
present. -/
theorem c4_counterexample :
    dget (RpcRequest.serialize ⟨"ping", .null, .null⟩) "jsonrpc" = none := by
  rfl

/-- Claim C4, amended: no outbound message (request, result or error)
carries a `"jsonrpc"` field at all, while inbound classification is
insensitive to the field's presence (prepending any `"jsonrpc"` binding to
an inbound payload leaves classification unchanged). -/
theorem c4_no_version_tag (rq : RpcRequest) (er : RpcError) (rs : RpcResult)
    (v : JSON) (o : List (String × JSON)) :
    dget rq.serialize "jsonrpc" = none ∧
    dget er.serialize "jsonrpc" = none ∧
    dget rs.serialize "jsonrpc" = none ∧
    classify (("jsonrpc", v) :: o) = classify o := by
  refine ⟨?_, ?_, ?_, ?_⟩
  · obtain ⟨m, p, i⟩ := rq
    cases p <;> cases i <;> simp [RpcRequest.serialize, dget, dset]
  · obtain ⟨c, m, d, i⟩ := er
    cases d <;> cases i <;> simp [RpcError.serialize, dget, dset]
  · obtain ⟨r, i⟩ := rs
    cases i <;> simp [RpcResult.serialize, dget, dset]
  · simp [classify, req_deserialize_skips_jsonrpc, err_deserialize_skips_jsonrpc,
      res_deserialize_skips_jsonrpc, dget]

/-- Claim C6, counterexample to the claim as stated: the line `42` parses
as JSON but is not an object, so `obj.get("method")` raises
`AttributeError` inside `RpcRequest.deserialize`; and the object line
whose `"error"` key holds the string `"x"` makes `error.get("code")`
raise inside `RpcError.deserialize`.  In both cases the reader crashes and
the Invalid-Request reply the claim promises — code `-32600`, null id, the
raw line in `data` — is never submitted. -/
theorem c6_counterexample :
    readerStepLine "42" (.num 42) = .crash ∧
    readerStepLine "42" (.num 42) ≠
      .submitError (RpcError.invalid_request (.str "42") .null) ∧
    classify [("error", .str "x")] = .error () ∧
    readerStepLine "errline" (.obj [("error", .str "x")]) = .crash ∧
    readerStepLine "errline" (.obj [("error", .str "x")]) ≠
      .submitError (RpcError.invalid_request (.str "errline") .null) := by
  refine ⟨rfl, ?_, rfl, rfl, ?_⟩ <;> exact fun h => nomatch h

/-- Claim C6, amended: an inbound line parsing to a JSON object on which
the Request → Error → Result classification chain *completes* with no
match is answered by submitting an Invalid-Request error with code
`-32600`, the payload's `id` (null when absent) and the raw line text as
`data`, and a line that classifies is dispatched with no such error; but a
line on which classification raises instead of completing — a non-object
payload, or an object whose `"error"` value is a present non-null
non-object — crashes the reader and nothing (in particular no `-32600`)
is submitted. -/
theorem c6_invalid_request (raw : String) (v : JSON) :
    (∀ kvs, v = .obj kvs → classify kvs = .ok none →
      readerStepLine raw v =
        .submitError ⟨-32600, "Invalid request", .str raw, (dget kvs "id").getD .null⟩) ∧
    (∀ kvs m, v = .obj kvs → classify kvs = .ok (some m) →
      readerStepLine raw v = .handle m) ∧
    (∀ kvs, v = .obj kvs → classify kvs = .error () →
      readerStepLine raw v = .crash) ∧
    ((∀ kvs, v ≠ .obj kvs) → readerStepLine raw v = .crash) := by
  refine ⟨?_, ?_, ?_, ?_⟩
  · intro kvs hv h
    subst hv
    simp [readerStepLine, readerStep, h, RpcError.invalid_request]
  · intro kvs m hv h
    subst hv
    simp [readerStepLine, readerStep, h]
  · intro kvs hv h
    subst hv
    simp [readerStepLine, readerStep, h]
  · intro hv
    cases v with
    | obj kvs => exact absurd rfl (hv kvs)
    | null => rfl
    | bool b => rfl
    | num n => rfl
    | str s => rfl
    | arr xs => rfl

/-- Witness for C6's amended theorem at the unclassifiable object payload
`{"foo": null}` and the classifiable payload `{"method": "m"}`. -/
theorem c6_invalid_request_witness :
    (JSON.obj [("foo", JSON.null)] = JSON.obj [("foo", JSON.null)] ∧
      classify [("foo", JSON.null)] = .ok none) ∧
    readerStepLine "rawline" (.obj [("foo", JSON.null)]) =
      .submitError ⟨-32600, "Invalid request", .str "rawline", .null⟩ ∧
    classify [("method", JSON.str "m")] = .ok (some (.req ⟨"m", .null, .null⟩)) ∧
    readerStepLine "x" (.obj [("method", JSON.str "m")]) =
      .handle (.req ⟨"m", .null, .null⟩) :=
  ⟨⟨rfl, by rfl⟩,
    (c6_invalid_request "rawline" (.obj [("foo", JSON.null)])).1 _ rfl (by rfl),
    by rfl,
    (c6_invalid_request "x" (.obj [("method", JSON.str "m")])).2.1 _ _ rfl (by rfl)⟩

/-- Claim C7: calling (or notifying) with both positional and named
arguments on a live peer raises the invalid-params error (code `-32602`)
locally: the pending-request map and the write queue are left untouched
(`call` has only incremented the id counter at that point) and `notify`
leaves the state unchanged entirely. -/
theorem c7_mixed_args (st : PeerState) (method : String) (args : List JSON)
    (kwargs : List (String × JSON)) (hterm : st.is_terminated = false)
    (hargs : args ≠ []) (hkwargs : kwargs ≠ []) :
    (RpcPeer.call st method args kwargs).1 =
      .raised (RpcError.invalid_params (.str "cannot mix args and kwargs") .null) ∧
    (RpcError.invalid_params (.str "cannot mix args and kwargs") .null).code = -32602 ∧
    (RpcPeer.call st method args kwargs).2.requests = st.requests ∧
    (RpcPeer.call st method args kwargs).2.write_queue = st.write_queue ∧
    (RpcPeer.notify st method args kwargs).1 =
      .raised (RpcError.invalid_params (.str "cannot mix args and kwargs") .null) ∧
    (RpcPeer.notify st method args kwargs).2 = st := by
  have ha : args.isEmpty = false := by
    simpa [List.isEmpty_iff] using hargs
  have hk : kwargs.isEmpty = false := by
    simpa [List.isEmpty_iff] using hkwargs
  refine ⟨?_, rfl, ?_, ?_, ?_, ?_⟩ <;>
    simp [RpcPeer.call, RpcPeer.notify, hterm, ha, hk]

/-- Witness for C7 on an empty live peer with `args = [null]` and
`kwargs = {"a": null}`. -/
theorem c7_mixed_args_witness :
    ((⟨[], 0, [], false⟩ : PeerState).is_terminated = false) ∧
    ([JSON.null] ≠ ([] : List JSON)) ∧
    ([("a", JSON.null)] ≠ ([] : List (String × JSON))) ∧
    ((RpcPeer.call ⟨[], 0, [], false⟩ "m" [JSON.null] [("a", JSON.null)]).1 =
      .raised (RpcError.invalid_params (.str "cannot mix args and kwargs") .null) ∧
    (RpcError.invalid_params (.str "cannot mix args and kwargs") .null).code = -32602 ∧
    (RpcPeer.call ⟨[], 0, [], false⟩ "m" [JSON.null] [("a", JSON.null)]).2.requests = [] ∧
    (RpcPeer.call ⟨[], 0, [], false⟩ "m" [JSON.null] [("a", JSON.null)]).2.write_queue = [] ∧
    (RpcPeer.notify ⟨[], 0, [], false⟩ "m" [JSON.null] [("a", JSON.null)]).1 =
      .raised (RpcError.invalid_params (.str "cannot mix args and kwargs") .null) ∧
    (RpcPeer.notify ⟨[], 0, [], false⟩ "m" [JSON.null] [("a", JSON.null)]).2 =
      ⟨[], 0, [], false⟩) :=
  ⟨rfl, by simp, by simp,
    c7_mixed_args ⟨[], 0, [], false⟩ "m" [JSON.null] [("a", JSON.null)] rfl
      (by simp) (by simp)⟩

theorem fireHandlers_log {E : Type} (event : E) (hs : List (Handler E)) :
    (fireHandlers event hs).2 = hs.map (fun h => (h.id, event)) := by
  induction hs with
  | nil => rfl
  | cons h rest ih =>
    rcases e : fireHandlers event rest with ⟨kept, log⟩
    rw [e] at ih
    cases hb : h.behavior event <;> simp [fireHandlers, e, hb, ih]

theorem fireHandlers_kept {E : Type} (event : E) (hs : List (Handler E)) :
    (fireHandlers event hs).1 =
      hs.filter (fun h => h.behavior event == .cont) := by
  induction hs with
  | nil => rfl
  | cons h rest ih =>
    rcases e : fireHandlers event rest with ⟨kept, log⟩
    rw [e] at ih
    cases hb : h.behavior event <;>
      simp [fireHandlers, e, hb, ih, List.filter_cons]

theorem fireFutures_log {E : Type} (event : E) (fs : List EvFuture) :
    fireFutures event fs =
      (fs.filter (fun f => !f.done)).map (fun f => (f.id, event)) := by
  induction fs with
  | nil => rfl
  | cons f rest ih =>
    cases hd : f.done <;> simp [fireFutures, hd, ih, List.filter_cons]

/-- Claim C8: firing an event delivers the value to every durable handler
registered at fire time exactly once and in order (the invocation log is
exactly one entry per snapshot handler); exactly the handlers answering
"continue" remain registered, so a handler that answers "drop" or raises is
removed, and a raising handler stops neither the remaining handlers (they
all appear in the log) nor the awaiters; every pending not-yet-done awaiter
is completed with the value exactly once, and the awaiter set is cleared. -/
theorem c8_event_fire {E : Type} (st : EventState E) (event : E) :
    (Event.fire st event).2.1 = st.handlers.map (fun h => (h.id, event)) ∧
    (Event.fire st event).1.handlers =
      st.handlers.filter (fun h => h.behavior event == .cont) ∧
    (Event.fire st event).2.2 =
      (st.futures.filter (fun f => !f.done)).map (fun f => (f.id, event)) ∧
    (Event.fire st event).1.futures = [] := by
  refine ⟨?_, ?_, ?_, ?_⟩ <;>
    simp [Event.fire, fireHandlers_log, fireHandlers_kept, fireFutures_log]

/-- Claim C3, counterexample: with a handler registered for `"tag1"` that
returns `None`, the `bind` branch emits no event at all, refuting the claim
that a null handler result emits `SweepBind{uid, tag, key}`. -/
theorem c3_counterexample :
    bind_step [("tag1", fun _ => none)] (.str "default") "tag1" (some "ctrl+a") =
      .silent ∧
    bind_step [("tag1", fun _ => none)] (.str "default") "tag1" (some "ctrl+a") ≠
      .bindEv (.str "default") "tag1" (some "ctrl+a") := by
  constructor
  · rfl
  · intro h
    simp [bind_step] at h

/-- Claim C3, amended: on a `bind` notification, a registered handler is
called and a non-null result is emitted as `SweepSelect{uid, [item]}`, a
null result emits nothing at all, and an unregistered tag emits
`SweepBind{uid, tag, key}`. -/
theorem c3_bind_dispatch (binds : List (String × (String → Option SwItem)))
    (uid : WindowId) (tag : String) (key : Option String) :
    (binds.lookup tag = none → bind_step binds uid tag key = .bindEv uid tag key) ∧
    (∀ handler, binds.lookup tag = some handler →
      (∀ item, handler tag = some item →
        bind_step binds uid tag key = .selectEv uid [item]) ∧
      (handler tag = none → bind_step binds uid tag key = .silent)) := by
  refine ⟨fun h => ?_, fun handler h => ⟨fun item hi => ?_, fun hn => ?_⟩⟩ <;>
    simp [bind_step, h]
  · simp [hi]
  · simp [hn]

/-- Witness for C3's amended theorem: a handler for `"t"` returning a plain
item produces the select event carrying it. -/
theorem c3_bind_dispatch_witness :
    (List.lookup "t" [("t", fun _ : String => some (SwItem.plain (.str "x")))] =
      some (fun _ : String => some (SwItem.plain (.str "x")))) ∧
    bind_step [("t", fun _ : String => some (SwItem.plain (.str "x")))] (.str "w") "t" none =
      .selectEv (.str "w") [.plain (.str "x")] :=
  ⟨rfl,
    ((c3_bind_dispatch [("t", fun _ : String => some (SwItem.plain (.str "x")))]
          (.str "w") "t" none).2
        (fun _ : String => some (SwItem.plain (.str "x"))) rfl).1
      (.plain (.str "x")) rfl⟩

/-- Claim C2, counterexample: with a field resolver that returns `None`,
two identical `field_missing {ref: 7}` notifications invoke the resolver
twice — a resolver returning null is retried on a subsequent identical
miss, refuting "at most once per ref" as stated. -/
theorem c2_counterexample :
    (process_misses (some (fun _ => none)) [] [some 7, some 7]).2 = [7, 7] ∧
    ¬(process_misses (some (fun _ => none)) [] [some 7, some 7]).2.count 7 ≤ 1 := by
  constructor
  · rfl
  · decide

theorem process_misses_not_invoked (resolver : Option (Int → Option JSON))
    (resolved : List Int) (misses : List (Option Int)) {r : Int}
    (h : r ∈ resolved) : r ∉ (process_misses resolver resolved misses).2 := by
  induction misses generalizing resolved with
  | nil => simp [process_misses]
  | cons ref rest ih =>
    cases ref with
    | none => simpa [process_misses, field_missing_step] using ih resolved h
    | some r' =>
      by_cases hr' : r' ∈ resolved
      · simpa [process_misses, field_missing_step, hr'] using ih resolved h
      · have hne : r ≠ r' := fun he => hr' (he ▸ h)
        cases resolver with
        | none => simpa [process_misses, field_missing_step, hr'] using ih resolved h
        | some res =>
          cases hres : res r' with
          | none =>
            simpa [process_misses, field_missing_step, hr', hres, hne] using
              ih resolved h
          | some fld =>
            have hmem : r ∈ resolved ++ [r'] := by simp [h]
            simpa [process_misses, field_missing_step, hr', hres, hne] using
              ih (resolved ++ [r']) hmem

/-- Claim C2, amended: a miss whose ref is already registered never invokes
the resolver (zero invocations for it), and once the resolver returns a
non-null field for a ref, that ref is registered and never resolved again —
so a ref the resolver can actually resolve is tried at most once.  (A
resolver returning null, however, is retried on the next identical miss,
see the counterexample.)  `view_missing` behaves identically with
field↔view renamed. -/
theorem c2_resolver_once (resolver : Int → Option JSON) (resolved : List Int)
    (misses : List (Option Int)) (r : Int)
    (h : r ∈ resolved ∨ (resolver r).isSome = true) :
    (process_misses (some resolver) resolved misses).2.count r ≤ 1 ∧
    (r ∈ resolved → (process_misses (some resolver) resolved misses).2.count r = 0) := by
  constructor
  · rcases h with hmem | hres
    · exact Nat.le_of_eq (List.count_eq_zero.mpr
        (process_misses_not_invoked _ _ _ hmem)) |>.trans (by omega)
    · induction misses generalizing resolved with
      | nil => simp [process_misses]
      | cons ref rest ih =>
        cases ref with
        | none => simpa [process_misses, field_missing_step] using ih resolved
        | some r' =>
          by_cases hr' : r' ∈ resolved
          · simpa [process_misses, field_missing_step, hr'] using ih resolved
          · cases hre : resolver r' with
            | none =>
              have hne : r ≠ r' := by
                intro he
                subst he
                simp [hre] at hres
              simpa [process_misses, field_missing_step, hr', hre,
                List.count_cons, hne, Ne.symm hne] using ih resolved
            | some fld =>
              by_cases heq : r = r'
              · subst heq
                have hzero : (process_misses (some resolver)
                    (resolved ++ [r]) rest).2.count r = 0 :=
                  List.count_eq_zero.mpr
                    (process_misses_not_invoked _ _ _ (by simp))
                simp [process_misses, field_missing_step, hr', hre,
                  List.count_cons, hzero]
              · simpa [process_misses, field_missing_step, hr', hre,
                  List.count_cons, heq, Ne.symm heq] using ih (resolved ++ [r'])
  · intro hmem
    exact List.count_eq_zero.mpr (process_misses_not_invoked _ _ _ hmem)

/-- Witness for C2's amended theorem: ref 5 already registered, three
misses (two of them for 5) — the resolver never runs for 5. -/
theorem c2_resolver_once_witness :
    ((5 : Int) ∈ ([5] : List Int) ∨
      ((fun _ => some JSON.null : Int → Option JSON) 5).isSome = true) ∧
    ((process_misses (some (fun _ => some JSON.null)) [5]
        [some 5, some 5, some 9]).2.count 5 ≤ 1 ∧
      ((5 : Int) ∈ ([5] : List Int) →
        (process_misses (some (fun _ => some JSON.null)) [5]
          [some 5, some 5, some 9]).2.count 5 = 0)) :=
  ⟨Or.inl (by decide),
    c2_resolver_once (fun _ => some JSON.null) [5] [some 5, some 5, some 9] 5
      (Or.inl (by decide))⟩

theorem storeGet_storeSet_self (m : List (WindowId × List SwItem))
    (k : WindowId) (v : List SwItem) : storeGet (storeSet m k v) k = v := by
  induction m with
  | nil => simp [storeGet, storeSet]
  | cons kv rest ih =>
    obtain ⟨k', v'⟩ := kv
    by_cases h : k' = k <;> simp [storeGet, storeSet, h, ih]

/-- Claim C9: `item_update(index, item, uid)` with an index at or past the
end of the targeted window's store fails with the out-of-range error before
any wire activity — no message is produced and the store is unchanged —
while a valid index replaces the stored element (stamped in place for
to-candidate items) and sends an update message. -/
theorem c9_item_update (st : SweepState) (index : Nat) (item : SwItem)
    (uid : Option WindowId) :
    ((storeGet st.items (resolveUid uid st.window_uid_current)).length ≤ index →
      item_update st index item uid = (st, none, true)) ∧
    (index < (storeGet st.items (resolveUid uid st.window_uid_current)).length →
      (item_update st index item uid).2.2 = false ∧
      (item_update st index item uid).2.1.isSome = true ∧
      storeGet (item_update st index item uid).1.items
          (resolveUid uid st.window_uid_current) =
        (storeGet st.items (resolveUid uid st.window_uid_current)).set index
          (item.stamp index)) := by
  constructor
  · intro h
    simp [item_update, h]
  · intro h
    have h' : ¬(storeGet st.items (resolveUid uid st.window_uid_current)).length ≤ index := by
      omega
    cases item <;>
      simp [item_update, h', SwItem.stamp, storeGet_storeSet_self]

/-- Witness for C9: a one-item store rejects index 5 untouched and accepts
index 0, replacing the element. -/
theorem c9_item_update_witness :
    ((storeGet (⟨[(.str "w", [.plain (.str "a")])], .str "w"⟩ : SweepState).items
        (resolveUid none (.str "w"))).length ≤ 5 ∧
      item_update ⟨[(.str "w", [.plain (.str "a")])], .str "w"⟩ 5
          (.plain (.str "b")) none =
        (⟨[(.str "w", [.plain (.str "a")])], .str "w"⟩, none, true)) ∧
    ((0 : Nat) < (storeGet
        (⟨[(.str "w", [.plain (.str "a")])], .str "w"⟩ : SweepState).items
        (resolveUid none (.str "w"))).length ∧
      (item_update ⟨[(.str "w", [.plain (.str "a")])], .str "w"⟩ 0
          (.plain (.str "b")) none).2.2 = false ∧
      (item_update ⟨[(.str "w", [.plain (.str "a")])], .str "w"⟩ 0
          (.plain (.str "b")) none).2.1.isSome = true ∧
      storeGet (item_update ⟨[(.str "w", [.plain (.str "a")])], .str "w"⟩ 0
            (.plain (.str "b")) none).1.items (resolveUid none (.str "w")) =
        [.plain (.str "b")]) :=
  ⟨⟨by decide,
      (c9_item_update ⟨[(.str "w", [.plain (.str "a")])], .str "w"⟩ 5
          (.plain (.str "b")) none).1 (by decide)⟩,
    ⟨by decide,
      (c9_item_update ⟨[(.str "w", [.plain (.str "a")])], .str "w"⟩ 0
          (.plain (.str "b")) none).2 (by decide)⟩⟩

/-- Claim C5: decoding the encoding of any message — serializing it and
re-classifying in the order Request → Error → Result — returns the original
message, for every request with well-typed params (`list | dict | None`)
and unconditionally for results and errors; omitted defaults (null params,
null id, null data) are restored as nulls. -/
theorem c5_roundtrip (m : RpcMessage) (h : m.wf = true) :
    classify m.serialize = .ok (some m) := by
  cases m with
  | req r =>
    obtain ⟨method, params, id⟩ := r
    cases params <;> simp_all [RpcMessage.wf, paramsWf] <;>
      cases id <;>
        simp [RpcMessage.serialize, RpcRequest.serialize, classify,
          RpcRequest.deserialize, dget, dset]
  | err e =>
    obtain ⟨code, message, data, id⟩ := e
    cases data <;> cases id <;>
      simp [RpcMessage.serialize, RpcError.serialize, classify,
        RpcRequest.deserialize, RpcError.deserialize, dget, dset]
  | res r =>
    obtain ⟨result, id⟩ := r
    cases id <;>
      simp [RpcMessage.serialize, RpcResult.serialize, classify,
        RpcRequest.deserialize, RpcError.deserialize, RpcResult.deserialize,
        dmem, dget, dset]

/-- Witness for C5 at the request `{method: "ping", params: [1], id: 0}`. -/
theorem c5_roundtrip_witness :
    (RpcMessage.req ⟨"ping", .arr [.num 1], .num 0⟩).wf = true ∧
    classify (RpcMessage.req ⟨"ping", .arr [.num 1], .num 0⟩).serialize =
      .ok (some (.req ⟨"ping", .arr [.num 1], .num 0⟩)) :=
  ⟨rfl, c5_roundtrip (.req ⟨"ping", .arr [.num 1], .num 0⟩) rfl⟩

/-- Claim C10, counterexample to the claim as universally stated: for the
candidate with `right_offset = 2` and `extra = {"offset": 1}`, the
round-trip's `right_offset` is `1` (the value `from_json` pops from the
caller's `"offset"` extra), not `0` — so "from_json(c.to_json()) returns a
candidate whose right_offset field is 0" fails for this `c` even though
`c.right_offset ≠ 0`. -/
theorem c10_counterexample :
    (Candidate.from_json (Candidate.to_json
        ⟨none, some [("offset", .num 1)], none, 2, none, none, 0, none⟩)).map
      Candidate.right_offset = some 1 ∧
    (Candidate.from_json (Candidate.to_json
        ⟨none, some [("offset", .num 1)], none, 2, none, none, 0, none⟩)).map
      Candidate.right_offset ≠ some 0 ∧
    (2 : Int) ≠ 0 :=
  ⟨rfl, by decide, by decide⟩

/-- Claim C10, amended: `to_json` writes a non-zero right offset under
`"right_offset"` while `from_json` reads `"offset"`, so for every candidate
`c` with `right_offset ≠ 0` whose extras do not themselves bind `"offset"`,
the round trip returns a candidate with `right_offset = 0` whose extras
carry `"right_offset"` with the original value — the round trip is not the
identity on such candidates. -/
theorem c10_offset_key_mismatch (c : Candidate) (h1 : c.right_offset ≠ 0)
    (h2 : dget (c.extra.getD []) "offset" = none) :
    ∃ c', Candidate.from_json c.to_json = some c' ∧ c'.right_offset = 0 ∧
      ∃ e, c'.extra = some e ∧
        dget e "right_offset" = some (.num c.right_offset) := by
  obtain ⟨kvs, htj, hro⟩ := candidate_to_json_right_offset c h1
  obtain ⟨kvs2, htj2, hoff⟩ := candidate_to_json_keeps c "offset"
    (by decide) (by decide) (by decide) (by decide) (by decide) (by decide)
    (by decide)
  rw [htj] at htj2
  obtain rfl : kvs = kvs2 := JSON.obj.inj htj2
  have hoffpop : dget (dpop (dpop kvs "target") "right") "offset" = none := by
    rw [dget_dpop_ne _ (by decide), dget_dpop_ne _ (by decide), hoff]
    exact h2
  have hro7 : dget (dpop (dpop (dpop (dpop (dpop (dpop (dpop kvs "target")
      "right") "offset") "right_face") "preview") "preview_flex") "hotkey")
      "right_offset" = some (.num c.right_offset) := by
    rw [dget_dpop_ne _ (by decide), dget_dpop_ne _ (by decide),
      dget_dpop_ne _ (by decide), dget_dpop_ne _ (by decide),
      dget_dpop_ne _ (by decide), dget_dpop_ne _ (by decide),
      dget_dpop_ne _ (by decide)]
    exact hro
  have hne : (dpop (dpop (dpop (dpop (dpop (dpop (dpop kvs "target")
      "right") "offset") "right_face") "preview") "preview_flex")
      "hotkey").isEmpty = false := isEmpty_false_of_dget hro7
  rw [htj]
  refine ⟨_, rfl, ?_, ?_⟩
  · show ((match dget (dpop (dpop kvs "target") "right") "offset" with
      | some (.num n) => n
      | _ => 0 : Int)) = (0 : Int)
    rw [hoffpop]
  · refine ⟨_, ?_, hro7⟩
    show (if (dpop (dpop (dpop (dpop (dpop (dpop (dpop kvs "target")
        "right") "offset") "right_face") "preview") "preview_flex")
        "hotkey").isEmpty then none else some _) = some _
    rw [hne]
    simp

/-- Witness for C10's amended theorem at
`Candidate(right_offset = 3, extra = {"pk": "b"})`. -/
theorem c10_offset_key_mismatch_witness :
    ((3 : Int) ≠ 0 ∧
      dget ((Candidate.mk none (some [("pk", .str "b")]) none 3 none none 0
        none).extra.getD []) "offset" = none) ∧
    ∃ c', Candidate.from_json (Candidate.to_json
        ⟨none, some [("pk", .str "b")], none, 3, none, none, 0, none⟩) =
          some c' ∧ c'.right_offset = 0 ∧
      ∃ e, c'.extra = some e ∧ dget e "right_offset" = some (.num 3) :=
  ⟨⟨by decide, by rfl⟩,
    c10_offset_key_mismatch
      ⟨none, some [("pk", .str "b")], none, 3, none, none, 0, none⟩
      (by decide) (by rfl)⟩

theorem items_extend_go_cache (itemsIn : List SwItem) (cache : List SwItem) :
    (items_extend_go cache itemsIn).1 = cache ++ stampFrom cache.length itemsIn := by
  induction itemsIn generalizing cache with
  | nil => simp [items_extend_go, stampFrom]
  | cons it rest ih =>
    cases it with
    | cand c =>
      rcases e : items_extend_go
          (cache ++ [.cand (c.extra_update "_sweep_item_index" (.num cache.length))])
          rest with ⟨cache', wireL⟩
      have h := ih (cache ++ [.cand (c.extra_update "_sweep_item_index" (.num cache.length))])
      rw [e] at h
      simp [items_extend_go, e, h, stampFrom, SwItem.stamp]
    | tagged t c =>
      rcases e : items_extend_go
          (cache ++ [.tagged t (c.extra_update "_sweep_item_index" (.num cache.length))])
          rest with ⟨cache', wireL⟩
      have h := ih (cache ++ [.tagged t (c.extra_update "_sweep_item_index" (.num cache.length))])
      rw [e] at h
      simp [items_extend_go, e, h, stampFrom, SwItem.stamp]
    | plain j =>
      rcases e : items_extend_go (cache ++ [.plain j]) rest with ⟨cache', wireL⟩
      have h := ih (cache ++ [.plain j])
      rw [e] at h
      simp [items_extend_go, e, h, stampFrom, SwItem.stamp]

theorem items_extend_go_wire (itemsIn : List SwItem) (cache : List SwItem) :
    (items_extend_go cache itemsIn).2 = wireFrom cache.length itemsIn := by
  induction itemsIn generalizing cache with
  | nil => simp [items_extend_go, wireFrom]
  | cons it rest ih =>
    cases it with
    | cand c =>
      rcases e : items_extend_go
          (cache ++ [.cand (c.extra_update "_sweep_item_index" (.num cache.length))])
          rest with ⟨cache', wireL⟩
      have h := ih (cache ++ [.cand (c.extra_update "_sweep_item_index" (.num cache.length))])
      rw [e] at h
      simp [items_extend_go, e, h, wireFrom, wireOne]
    | tagged t c =>
      rcases e : items_extend_go
          (cache ++ [.tagged t (c.extra_update "_sweep_item_index" (.num cache.length))])
          rest with ⟨cache', wireL⟩
      have h := ih (cache ++ [.tagged t (c.extra_update "_sweep_item_index" (.num cache.length))])
      rw [e] at h
      simp [items_extend_go, e, h, wireFrom, wireOne]
    | plain j =>
      rcases e : items_extend_go (cache ++ [.plain j]) rest with ⟨cache', wireL⟩
      have h := ih (cache ++ [.plain j])
      rw [e] at h
      simp [items_extend_go, e, h, wireFrom, wireOne]

theorem stampFrom_length (xs : List SwItem) (n : Nat) :
    (stampFrom n xs).length = xs.length := by
  induction xs generalizing n with
  | nil => rfl
  | cons it rest ih => simp [stampFrom, ih]

theorem wireFrom_length (xs : List SwItem) (n : Nat) :
    (wireFrom n xs).length = xs.length := by
  induction xs generalizing n with
  | nil => rfl
  | cons it rest ih => simp [wireFrom, ih]

theorem stampFrom_getElem? (xs : List SwItem) (n i : Nat) (h : i < xs.length) :
    (stampFrom n xs)[i]? = some ((xs[i]).stamp (n + i)) := by
  induction xs generalizing n i with
  | nil => simp at h
  | cons it rest ih =>
    cases i with
    | zero => simp [stampFrom]
    | succ i' =>
      have h' : i' < rest.length := by simpa using h
      show (it.stamp n :: stampFrom (n + 1) rest)[i' + 1]? = _
      rw [List.getElem?_cons_succ, ih (n + 1) i' h']
      have harith : n + 1 + i' = n + (i' + 1) := by omega
      rw [harith]
      rfl

theorem wireFrom_getElem? (xs : List SwItem) (n i : Nat) (h : i < xs.length) :
    (wireFrom n xs)[i]? = some (wireOne (n + i) (xs[i])) := by
  induction xs generalizing n i with
  | nil => simp at h
  | cons it rest ih =>
    cases i with
    | zero => simp [wireFrom]
    | succ i' =>
      have h' : i' < rest.length := by simpa using h
      show (wireOne n it :: wireFrom (n + 1) rest)[i' + 1]? = _
      rw [List.getElem?_cons_succ, ih (n + 1) i' h']
      have harith : n + 1 + i' = n + (i' + 1) := by omega
      rw [harith]
      rfl

theorem pyIndex_natCast {α : Type} (xs : List α) (n : Nat) :
    pyIndex xs (n : Int) = xs[n]? := by
  by_cases h : n < xs.length
  · have h0 : (0 : Int) ≤ (n : Int) := Int.natCast_nonneg n
    have h1 : (n : Int) < (xs.length : Int) := by exact_mod_cast h
    simp only [pyIndex, if_pos h0, dif_pos (And.intro h0 h1)]
    rw [List.getElem?_eq_getElem h]
    congr 1
  · have h1 : ¬((n : Int) < (xs.length : Int)) := by
      intro hlt
      exact h (by exact_mod_cast hlt)
    have h0 : (0 : Int) ≤ (n : Int) := Int.natCast_nonneg n
    simp only [pyIndex, if_pos h0]
    rw [dif_neg (fun hc => h1 hc.2), List.getElem?_eq_none (by omega)]

/-- The wire form of a stamped candidate is a dict whose
`_sweep_item_index` key carries exactly the stamp. -/
theorem stamped_to_json (c : Candidate) (idx : Nat) :
    ∃ kvs, (c.extra_update "_sweep_item_index" (.num idx)).to_json = .obj kvs ∧
      dget kvs "_sweep_item_index" = some (.num idx) := by
  obtain ⟨kvs, htj, hk⟩ :=
    candidate_to_json_keeps (c.extra_update "_sweep_item_index" (.num idx))
      "_sweep_item_index" (by decide) (by decide) (by decide) (by decide)
      (by decide) (by decide) (by decide)
  refine ⟨kvs, htj, ?_⟩
  rw [hk]
  show dget ((some (dset (c.extra.getD []) "_sweep_item_index" (.num idx))).getD []) _ = _
  simp [dget_dset_self]

/-- Claim C1: for any batch submitted through `items_extend` to window
`uid or current`, the window's store becomes the old store extended by the
caller's objects in order, each to-candidate item carrying the in-place
`_sweep_item_index` stamp of its store position; the `i`-th wire form is
the stamped candidate's JSON (a dict whose `_sweep_item_index` equals the
store position) for to-candidate items and the verbatim value otherwise;
restoring a to-candidate item's wire form through `__item_get` — which is
what `items_current`, `items_marked` and the `select` event translation all
do — yields exactly the stored caller object; a non-to-candidate item is
returned verbatim provided it does not itself carry the reserved
`_sweep_item_index` key (reserved by the protocol for the client). -/
theorem c1_items_identity (st : SweepState) (itemsIn : List SwItem)
    (uid : Option WindowId) (i : Nat) (hi : i < itemsIn.length) :
    let key := resolveUid uid st.window_uid_current
    let prior := storeGet st.items key
    let st' := (items_extend st itemsIn uid).1
    let wire := (items_extend st itemsIn uid).2
    let pos : Nat := prior.length + i
    let it := itemsIn[i]
    storeGet st'.items key = prior ++ stampFrom prior.length itemsIn ∧
    wire.length = itemsIn.length ∧
    wire[i]? = some (wireOne pos it) ∧
    (∀ c, it.toCandidate = some c →
      (∃ kvs, wireOne pos it = .obj kvs ∧
        dget kvs "_sweep_item_index" = some (.num pos)) ∧
      (storeGet st'.items key)[pos]? = some (it.stamp pos) ∧
      items_current_restore st' uid (wireOne pos it) = .ok (it.stamp pos) ∧
      items_marked_restore st' uid [wireOne pos it] = [.ok (it.stamp pos)] ∧
      select_restore st' uid [wireOne pos it] = [.ok (it.stamp pos)]) ∧
    (∀ j, it = .plain j →
      wireOne pos it = j ∧
      ((∀ kvs, j = .obj kvs → dget kvs "_sweep_item_index" = none) →
        item_get st' uid j = .ok (.plain j))) := by
  rcases egw : items_extend_go
      (storeGet st.items (resolveUid uid st.window_uid_current)) itemsIn
    with ⟨cacheN, wireN⟩
  have hIE : items_extend st itemsIn uid =
      (SweepState.mk
        (storeSet st.items (resolveUid uid st.window_uid_current) cacheN)
        st.window_uid_current, wireN) := by
    simp [items_extend, egw]
  have hcache : cacheN =
      storeGet st.items (resolveUid uid st.window_uid_current) ++
        stampFrom (storeGet st.items
          (resolveUid uid st.window_uid_current)).length itemsIn := by
    have h := items_extend_go_cache itemsIn
      (storeGet st.items (resolveUid uid st.window_uid_current))
    rw [egw] at h
    exact h
  have hwireN : wireN = wireFrom
      (storeGet st.items (resolveUid uid st.window_uid_current)).length itemsIn := by
    have h := items_extend_go_wire itemsIn
      (storeGet st.items (resolveUid uid st.window_uid_current))
    rw [egw] at h
    exact h
  have hstore : storeGet (items_extend st itemsIn uid).1.items
      (resolveUid uid st.window_uid_current) =
      storeGet st.items (resolveUid uid st.window_uid_current) ++
        stampFrom (storeGet st.items
          (resolveUid uid st.window_uid_current)).length itemsIn := by
    rw [hIE]
    show storeGet (storeSet st.items
      (resolveUid uid st.window_uid_current) cacheN) _ = _
    rw [storeGet_storeSet_self, hcache]
  have hwuid : (items_extend st itemsIn uid).1.window_uid_current =
      st.window_uid_current := by
    rw [hIE]
  have hlen : (storeGet st.items (resolveUid uid st.window_uid_current) ++
      stampFrom (storeGet st.items
        (resolveUid uid st.window_uid_current)).length itemsIn).length =
      (storeGet st.items (resolveUid uid st.window_uid_current)).length +
        itemsIn.length := by
    simp [stampFrom_length]
  have helem : (storeGet st.items (resolveUid uid st.window_uid_current) ++
      stampFrom (storeGet st.items
        (resolveUid uid st.window_uid_current)).length itemsIn)[
      (storeGet st.items (resolveUid uid st.window_uid_current)).length + i]? =
      some ((itemsIn[i]).stamp
        ((storeGet st.items (resolveUid uid st.window_uid_current)).length + i)) := by
    rw [List.getElem?_append_right (by omega)]
    have hidx : (storeGet st.items (resolveUid uid st.window_uid_current)).length +
        i - (storeGet st.items (resolveUid uid st.window_uid_current)).length = i := by
      omega
    rw [hidx, stampFrom_getElem? itemsIn _ i hi]
  have hstored : (storeGet (items_extend st itemsIn uid).1.items
      (resolveUid uid st.window_uid_current))[
      (storeGet st.items (resolveUid uid st.window_uid_current)).length + i]? =
      some ((itemsIn[i]).stamp
        ((storeGet st.items (resolveUid uid st.window_uid_current)).length + i)) := by
    rw [hstore]
    exact helem
  dsimp only
  refine ⟨hstore, ?_, ?_, ?_, ?_⟩
  · rw [hIE]
    show wireN.length = itemsIn.length
    rw [hwireN, wireFrom_length]
  · rw [hIE]
    show wireN[i]? = _
    rw [hwireN]
    exact wireFrom_getElem? itemsIn _ i hi
  · intro c hc
    have hobj : ∃ kvs, wireOne
        ((storeGet st.items (resolveUid uid st.window_uid_current)).length + i)
          (itemsIn[i]) = .obj kvs ∧
        dget kvs "_sweep_item_index" = some (.num
          (((storeGet st.items (resolveUid uid st.window_uid_current)).length + i
            : Nat))) := by
      cases hit : itemsIn[i] with
      | plain j =>
        rw [hit] at hc
        simp [SwItem.toCandidate] at hc
      | cand c0 =>
        exact stamped_to_json c0 _
      | tagged t c0 =>
        exact stamped_to_json c0 _
    obtain ⟨kvs, hwj, hdg⟩ := hobj
    have hget : item_get (items_extend st itemsIn uid).1 uid
        (wireOne ((storeGet st.items
          (resolveUid uid st.window_uid_current)).length + i)
          (itemsIn[i])) =
        .ok ((itemsIn[i]).stamp
          ((storeGet st.items (resolveUid uid st.window_uid_current)).length + i)) := by
      rw [hwj]
      simp only [item_get]
      rw [hwuid, hstore, hdg]
      have hc2 : (((storeGet st.items
          (resolveUid uid st.window_uid_current)).length + i : Nat) : Int) <
          (((storeGet st.items (resolveUid uid st.window_uid_current) ++
            stampFrom (storeGet st.items
              (resolveUid uid st.window_uid_current)).length itemsIn).length : Nat) : Int) := by
        rw [hlen]
        exact_mod_cast (by omega : (storeGet st.items
          (resolveUid uid st.window_uid_current)).length + i <
          (storeGet st.items (resolveUid uid st.window_uid_current)).length +
            itemsIn.length)
      dsimp only
      rw [if_pos hc2, pyIndex_natCast, helem]
    exact ⟨⟨kvs, hwj, hdg⟩, hstored, hget,
      by simp [items_marked_restore, hget],
      by simp [select_restore, hget]⟩
  · intro j hj
    constructor
    · rw [hj]
      rfl
    · intro hconf
      cases j with
      | obj kvs2 =>
        have hnone := hconf kvs2 rfl
        simp only [item_get]
        rw [hnone]
      | null => rfl
      | bool b => rfl
      | num n => rfl
      | str s => rfl
      | arr xs => rfl

/-- Witness for C1: extending the empty default store with a candidate and
a plain string; the candidate's wire form carries stamp 0 and restores to
the stored (stamped) caller object through all three restoration paths. -/
theorem c1_items_identity_witness :
    ((0 : Nat) <
      ([SwItem.cand Candidate.empty, SwItem.plain (.str "x")] : List SwItem).length) ∧
    ((SwItem.cand Candidate.empty).toCandidate = some Candidate.empty) ∧
    ((∃ kvs, wireOne 0 (SwItem.cand Candidate.empty) = .obj kvs ∧
        dget kvs "_sweep_item_index" = some (.num 0)) ∧
      (storeGet (items_extend ⟨[], .str "d"⟩
          [SwItem.cand Candidate.empty, SwItem.plain (.str "x")] none).1.items
        (.str "d"))[0]? = some ((SwItem.cand Candidate.empty).stamp 0) ∧
      items_current_restore (items_extend ⟨[], .str "d"⟩
          [SwItem.cand Candidate.empty, SwItem.plain (.str "x")] none).1 none
          (wireOne 0 (SwItem.cand Candidate.empty)) =
        .ok ((SwItem.cand Candidate.empty).stamp 0) ∧
      items_marked_restore (items_extend ⟨[], .str "d"⟩
          [SwItem.cand Candidate.empty, SwItem.plain (.str "x")] none).1 none
          [wireOne 0 (SwItem.cand Candidate.empty)] =
        [.ok ((SwItem.cand Candidate.empty).stamp 0)] ∧
      select_restore (items_extend ⟨[], .str "d"⟩
          [SwItem.cand Candidate.empty, SwItem.plain (.str "x")] none).1 none
          [wireOne 0 (SwItem.cand Candidate.empty)] =
        [.ok ((SwItem.cand Candidate.empty).stamp 0)]) :=
  ⟨by decide, rfl,
    (c1_items_identity ⟨[], .str "d"⟩
        [SwItem.cand Candidate.empty, SwItem.plain (.str "x")] none 0
        (by decide)).2.2.2.1 Candidate.empty rfl⟩

end SweepSpec
